import Mathlib

/-!
Shallow embedding of the transaction risk rule engine of
`app/services/rule_engine.py` (strategy-pattern rules, per-user rule
configuration, score aggregation and ALLOW / REVIEW / BLOCK decision),
together with the parts of the data model it reads
(`app/models/transaction.py`, `app/models/user_rule_config.py`).

Python floats carrying monetary amounts are modelled as exact rationals
(`Rat`); Python `datetime` values (UTC, as the code always uses
`timezone.utc`) are modelled as seven-field calendar records compared
lexicographically, exactly as same-timezone Python datetimes compare.
The async database session is modelled as an explicit in-memory record
store `DB`; the wall clock read by `datetime.now(timezone.utc)` is an
explicit `now` parameter.
-/

namespace Hackillionis

/-- Python `str.strip()` whitespace test, restricted to the ASCII
whitespace characters (the data here is country codes and short names). -/
def isPyWhitespace (c : Char) : Bool :=
  c = ' ' || c = '\t' || c = '\n' || c = '\r' || c = '\x0b' || c = '\x0c'

/-- Drop leading whitespace characters from a character list. -/
def dropLeadingWhitespace : List Char → List Char
  | [] => []
  | c :: cs => if isPyWhitespace c then dropLeadingWhitespace cs else c :: cs

/-- Python `str.strip()`: remove leading and trailing whitespace. -/
def pyStrip (s : String) : String :=
  ⟨dropLeadingWhitespace ((dropLeadingWhitespace s.data.reverse).reverse)⟩

/-- Python `str.upper()` on a single character (ASCII range, which covers
the country codes this code handles). -/
def pyUpperChar (c : Char) : Char :=
  if 'a' ≤ c ∧ c ≤ 'z' then Char.ofNat (c.toNat - 32) else c

/-- Python `str.upper()`. -/
def pyUpper (s : String) : String :=
  ⟨s.data.map pyUpperChar⟩

/-- A UTC `datetime` value (the code always works in `timezone.utc`). -/
structure DateTime where
  year : Nat
  month : Nat
  day : Nat
  hour : Nat
  minute : Nat
  second : Nat
  microsecond : Nat
deriving DecidableEq, Repr

/-- Comparison `a <= b` of two same-timezone Python datetimes:
lexicographic on the calendar fields. -/
def DateTime.ble (a b : DateTime) : Bool :=
  if a.year < b.year then true else if b.year < a.year then false
  else if a.month < b.month then true else if b.month < a.month then false
  else if a.day < b.day then true else if b.day < a.day then false
  else if a.hour < b.hour then true else if b.hour < a.hour then false
  else if a.minute < b.minute then true else if b.minute < a.minute then false
  else if a.second < b.second then true else if b.second < a.second then false
  else decide (a.microsecond ≤ b.microsecond)

/-- `transaction.created_at.replace(day=1, hour=0, minute=0, second=0,
microsecond=0)` from `MonthlyLimitRule.evaluate`: midnight on day 1 of the
timestamp's calendar month. -/
def DateTime.startOfMonth (t : DateTime) : DateTime :=
  { t with day := 1, hour := 0, minute := 0, second := 0, microsecond := 0 }

/-- Gregorian leap-year test, as in Python's `calendar`/`datetime`. -/
def isLeapYear (y : Nat) : Bool :=
  (y % 4 == 0 && y % 100 != 0) || y % 400 == 0

/-- Number of days in a Gregorian month. -/
def daysInMonth (y m : Nat) : Nat :=
  if m == 2 then (if isLeapYear y then 29 else 28)
  else if m == 4 || m == 6 || m == 9 || m == 11 then 30
  else 31

/-- `datetime - timedelta(hours=1)` on a valid datetime: the rolling
one-hour window start used by `VelocityRule.evaluate`
(`since = datetime.now(timezone.utc) - timedelta(hours=1)`). -/
def DateTime.minusOneHour (t : DateTime) : DateTime :=
  if 1 ≤ t.hour then { t with hour := t.hour - 1 }
  else if 1 < t.day then { t with day := t.day - 1, hour := 23 }
  else if 1 < t.month then
    { t with month := t.month - 1, day := daysInMonth t.year (t.month - 1), hour := 23 }
  else { t with year := t.year - 1, month := 12, day := 31, hour := 23 }

/-- The `transactions` table row (`app/models/transaction.py`); the JSON
`metadata` column, which the engine never reads, is carried as an opaque
optional string. -/
structure Transaction where
  id : Int
  user_id : Int
  amount : Rat
  currency : String
  country : Option String
  status : String
  metadata_ : Option String
  created_at : DateTime
deriving DecidableEq, Repr

/-- The `user_rule_configs` table row (`app/models/user_rule_config.py`):
at most one row per user (unique constraint on `user_id`). -/
structure UserRuleConfig where
  id : Int
  user_id : Int
  max_transaction_amount : Option Rat
  max_transactions_per_hour : Option Int
  monthly_spending_limit : Option Rat
  blocked_countries : Option (List String)
deriving DecidableEq, Repr

/-- In-memory view of per-user rule config for strategy `evaluate()`
(`UserRulesView` dataclass): `none` = no limit, empty list = none blocked. -/
structure UserRulesView where
  max_transaction_amount : Option Rat
  max_transactions_per_hour : Option Int
  monthly_spending_limit : Option Rat
  blocked_countries : List String
deriving DecidableEq, Repr

/-- `_default_user_rules()`: every limit unset, no blocked countries. -/
def default_user_rules : UserRulesView :=
  { max_transaction_amount := none
    max_transactions_per_hour := none
    monthly_spending_limit := none
    blocked_countries := [] }

/-- `RuleResult` dataclass: result of a single rule evaluation. -/
structure RuleResult where
  triggered : Bool
  message : String
  risk_contribution : Int
  rule_name : String
deriving DecidableEq, Repr

/-- The `Literal["ALLOW", "REVIEW", "BLOCK"]` decision type. -/
inductive Decision
  | ALLOW
  | REVIEW
  | BLOCK
deriving DecidableEq, Repr

/-- `EvaluationResult` dataclass: aggregate result of evaluating all
registered rules for a transaction. -/
structure EvaluationResult where
  transaction_id : Int
  risk_score : Int
  decision : Decision
  rule_results : List RuleResult
deriving DecidableEq, Repr

/-- `_decision_from_score`: ALLOW if score < 40, REVIEW if 40-70, BLOCK
if > 70. -/
def decision_from_score (risk_score : Int) : Decision :=
  if risk_score < 40 then .ALLOW
  else if risk_score ≤ 70 then .REVIEW
  else .BLOCK

/-- The engine's caller-visible failures: `ValueError` raised by
`BaseRule.__init__` for an out-of-range weight (the spec's
`InvalidConfiguration`), and `ValueError` raised by
`evaluate_transaction` for a missing transaction (mapped to HTTP 404
NotFound by `app/routes/evaluation.py`). -/
inductive EngineError
  | invalidConfiguration (msg : String)
  | notFound (transaction_id : Int)
deriving DecidableEq, Repr

/-- The record store visible through the async session: the
`transactions` and `user_rule_configs` tables. -/
structure DB where
  transactions : List Transaction
  user_rule_configs : List UserRuleConfig

/-- `select(Transaction).where(Transaction.id == transaction_id)` +
`scalar_one_or_none()`. -/
def DB.getTransactionById (db : DB) (transaction_id : Int) : Option Transaction :=
  db.transactions.find? (fun t => t.id == transaction_id)

/-- The user's stored transactions with `created_at >= since`: the row
set behind both aggregate queries (`func.count` in `VelocityRule` and
`func.sum` in `MonthlyLimitRule`). -/
def DB.transactionsSince (db : DB) (user_id : Int) (since : DateTime) : List Transaction :=
  db.transactions.filter (fun r => r.user_id == user_id && DateTime.ble since r.created_at)

/-- `select(func.count(Transaction.id)).where(user_id == .., created_at >= since)`. -/
def DB.countTransactionsSince (db : DB) (user_id : Int) (since : DateTime) : Nat :=
  (db.transactionsSince user_id since).length

/-- `select(func.coalesce(func.sum(Transaction.amount), 0)).where(...)`:
the empty sum is 0. -/
def DB.sumTransactionAmountsSince (db : DB) (user_id : Int) (since : DateTime) : Rat :=
  ((db.transactionsSince user_id since).map (fun r => r.amount)).sum

/-- `select(UserRuleConfig).where(UserRuleConfig.user_id == user_id)` +
`scalar_one_or_none()`. -/
def DB.getConfigurationForUser (db : DB) (user_id : Int) : Option UserRuleConfig :=
  db.user_rule_configs.find? (fun c => c.user_id == user_id)

/-- `_get_user_rules`: load `UserRuleConfig` for the user or return
defaults; a stored `blocked_countries` of null becomes `[]`. -/
def get_user_rules (user_id : Int) (db : DB) : UserRulesView :=
  match db.getConfigurationForUser user_id with
  | none => default_user_rules
  | some row =>
      { max_transaction_amount := row.max_transaction_amount
        max_transactions_per_hour := row.max_transactions_per_hour
        monthly_spending_limit := row.monthly_spending_limit
        blocked_countries := row.blocked_countries.getD [] }

/-- The name/weight pair fixed by `BaseRule.__init__`. -/
structure BaseRuleData where
  name : String
  weight : Int
deriving DecidableEq, Repr

/-- `BaseRule.__init__`: `if not 0 <= weight <= 100: raise
ValueError("weight must be between 0 and 100")`. -/
def BaseRuleData.init (name : String) (weight : Int) : Except EngineError BaseRuleData :=
  if ¬(0 ≤ weight ∧ weight ≤ 100) then
    .error (.invalidConfiguration "weight must be between 0 and 100")
  else
    .ok { name := name, weight := weight }

/-- `MaxAmountRule.evaluate`: triggers when `transaction.amount` is
strictly greater than `user_rules.max_transaction_amount`. -/
def maxAmountEvaluate (weight : Int) (transaction : Transaction)
    (user_rules : UserRulesView) (_db : DB) (_now : DateTime) : RuleResult :=
  match user_rules.max_transaction_amount with
  | none =>
      { triggered := false, message := "No amount limit set"
        risk_contribution := 0, rule_name := "" }
  | some limit =>
      if transaction.amount ≤ limit then
        { triggered := false
          message := "Amount " ++ toString transaction.amount ++ " within limit " ++ toString limit
          risk_contribution := 0, rule_name := "" }
      else
        { triggered := true
          message := "Amount " ++ toString transaction.amount ++ " exceeds limit " ++ toString limit
          risk_contribution := weight, rule_name := "" }

/-- `VelocityRule.evaluate`: counts the user's stored transactions with
`created_at >= now - 1 hour` and triggers when the count is strictly
greater than `user_rules.max_transactions_per_hour`. -/
def velocityEvaluate (weight : Int) (transaction : Transaction)
    (user_rules : UserRulesView) (db : DB) (now : DateTime) : RuleResult :=
  match user_rules.max_transactions_per_hour with
  | none =>
      { triggered := false, message := "No velocity limit set"
        risk_contribution := 0, rule_name := "" }
  | some limit =>
      let since := now.minusOneHour
      let count : Int := db.countTransactionsSince transaction.user_id since
      if count ≤ limit then
        { triggered := false
          message := "Transactions in last hour " ++ toString count ++ " within limit " ++ toString limit
          risk_contribution := 0, rule_name := "" }
      else
        { triggered := true
          message := "Transactions in last hour " ++ toString count ++ " exceed limit " ++ toString limit
          risk_contribution := weight, rule_name := "" }

/-- `MonthlyLimitRule.evaluate`: sums the user's stored transactions with
`created_at >= start_of_month` (midnight on day 1 of the evaluated
transaction's calendar month) and triggers when the sum is strictly
greater than `user_rules.monthly_spending_limit`. -/
def monthlyLimitEvaluate (weight : Int) (transaction : Transaction)
    (user_rules : UserRulesView) (db : DB) (_now : DateTime) : RuleResult :=
  match user_rules.monthly_spending_limit with
  | none =>
      { triggered := false, message := "No monthly limit set"
        risk_contribution := 0, rule_name := "" }
  | some limit =>
      let start_of_month := transaction.created_at.startOfMonth
      let total := db.sumTransactionAmountsSince transaction.user_id start_of_month
      if total ≤ limit then
        { triggered := false
          message := "Monthly total " ++ toString total ++ " within limit " ++ toString limit
          risk_contribution := 0, rule_name := "" }
      else
        { triggered := true
          message := "Monthly total " ++ toString total ++ " exceeds limit " ++ toString limit
          risk_contribution := weight, rule_name := "" }

/-- `CountryBlockRule.evaluate`: triggers when the transaction's country,
stripped and uppercased, is non-empty and appears in the stripped and
uppercased blocked list (`[c.strip().upper() for c in blocked if c]`). -/
def countryBlockEvaluate (weight : Int) (transaction : Transaction)
    (user_rules : UserRulesView) (_db : DB) (_now : DateTime) : RuleResult :=
  let blocked := user_rules.blocked_countries
  if blocked.isEmpty then
    { triggered := false, message := "No countries blocked"
      risk_contribution := 0, rule_name := "" }
  else
    let country := pyUpper (pyStrip (transaction.country.getD ""))
    if country = "" then
      { triggered := false, message := "Transaction has no country"
        risk_contribution := 0, rule_name := "" }
    else
      let normalized_blocked := (blocked.filter (fun c => c != "")).map (fun c => pyUpper (pyStrip c))
      if country ∉ normalized_blocked then
        { triggered := false
          message := "Country " ++ country ++ " not in blocked list"
          risk_contribution := 0, rule_name := "" }
      else
        { triggered := true
          message := "Country " ++ country ++ " is blocked"
          risk_contribution := weight, rule_name := "" }

/-- A registered rule strategy: one of the four concrete `BaseRule`
subclasses, carrying the weight fixed at construction. -/
inductive Rule
  | maxAmount (weight : Int)
  | velocity (weight : Int)
  | monthlyLimit (weight : Int)
  | countryBlock (weight : Int)
deriving DecidableEq, Repr

/-- The `name` attribute each concrete class passes to `BaseRule.__init__`. -/
def Rule.name : Rule → String
  | .maxAmount _ => "MaxAmountRule"
  | .velocity _ => "VelocityRule"
  | .monthlyLimit _ => "MonthlyLimitRule"
  | .countryBlock _ => "CountryBlockRule"

/-- The `weight` attribute fixed at construction. -/
def Rule.weight : Rule → Int
  | .maxAmount w => w
  | .velocity w => w
  | .monthlyLimit w => w
  | .countryBlock w => w

/-- Polymorphic dispatch of `rule.evaluate(transaction, user_rules, db)`. -/
def Rule.evaluate (rule : Rule) (transaction : Transaction)
    (user_rules : UserRulesView) (db : DB) (now : DateTime) : RuleResult :=
  match rule with
  | .maxAmount w => maxAmountEvaluate w transaction user_rules db now
  | .velocity w => velocityEvaluate w transaction user_rules db now
  | .monthlyLimit w => monthlyLimitEvaluate w transaction user_rules db now
  | .countryBlock w => countryBlockEvaluate w transaction user_rules db now

/-- `MaxAmountRule(weight)`: runs the `BaseRule.__init__` weight check. -/
def mkMaxAmountRule (weight : Int) : Except EngineError Rule := do
  let _ ← BaseRuleData.init "MaxAmountRule" weight
  .ok (.maxAmount weight)

/-- `VelocityRule(weight)`: runs the `BaseRule.__init__` weight check. -/
def mkVelocityRule (weight : Int) : Except EngineError Rule := do
  let _ ← BaseRuleData.init "VelocityRule" weight
  .ok (.velocity weight)

/-- `MonthlyLimitRule(weight)`: runs the `BaseRule.__init__` weight check. -/
def mkMonthlyLimitRule (weight : Int) : Except EngineError Rule := do
  let _ ← BaseRuleData.init "MonthlyLimitRule" weight
  .ok (.monthlyLimit weight)

/-- `CountryBlockRule(weight)`: runs the `BaseRule.__init__` weight check. -/
def mkCountryBlockRule (weight : Int) : Except EngineError Rule := do
  let _ ← BaseRuleData.init "CountryBlockRule" weight
  .ok (.countryBlock weight)

/-- `risk_score = min(100, sum(r.risk_contribution for r in rule_results))`
from `RuleEngine.evaluate_transaction`. -/
def aggregate_risk_score (rule_results : List RuleResult) : Int :=
  min 100 ((rule_results.map (fun r => r.risk_contribution)).sum)

/-- `RuleEngine.evaluate_transaction`: load the transaction (raising for a
missing id), resolve the user's rule view, run every registered rule in
order stamping its name on the verdict, then aggregate score and
decision. -/
def evaluate_transaction (rules : List Rule) (transaction_id : Int)
    (db : DB) (now : DateTime) : Except EngineError EvaluationResult :=
  match db.getTransactionById transaction_id with
  | none => .error (.notFound transaction_id)
  | some transaction =>
      let user_rules := get_user_rules transaction.user_id db
      let rule_results := rules.map (fun rule =>
        { rule.evaluate transaction user_rules db now with rule_name := rule.name })
      let risk_score := aggregate_risk_score rule_results
      let decision := decision_from_score risk_score
      .ok { transaction_id := transaction_id
            risk_score := risk_score
            decision := decision
            rule_results := rule_results }

/-- `create_default_engine()`: MaxAmountRule(30), VelocityRule(25),
MonthlyLimitRule(35), CountryBlockRule(40), in this order. -/
def create_default_engine : List Rule :=
  [.maxAmount 30, .velocity 25, .monthlyLimit 35, .countryBlock 40]

/-- Generic sample timestamp used by concrete witness records. -/
def dtW : DateTime := ⟨2026, 3, 15, 12, 0, 0, 0⟩

/-- Build a stored transaction row with the defaults the model uses
(`currency "USD"`, `status "pending"`, no metadata). -/
def mkTxn (id user_id : Int) (amount : Rat) (country : Option String)
    (created_at : DateTime) : Transaction :=
  { id := id, user_id := user_id, amount := amount, currency := "USD"
    country := country, status := "pending", metadata_ := none
    created_at := created_at }

/-- A record store with no rows at all. -/
def dbEmpty : DB := { transactions := [], user_rule_configs := [] }

/-- Sample view with only a maximum single-transaction amount of 100. -/
def viewC4 : UserRulesView :=
  { max_transaction_amount := some 100, max_transactions_per_hour := none
    monthly_spending_limit := none, blocked_countries := [] }

/-- Sample transaction of amount 150 for user 7. -/
def tC4 : Transaction := mkTxn 1 7 150 (some "US") dtW

/-- Sample view blocking the single (lowercase) country code "ir". -/
def viewC7 : UserRulesView :=
  { max_transaction_amount := none, max_transactions_per_hour := none
    monthly_spending_limit := none, blocked_countries := ["ir"] }

/-- Sample transaction whose country is " IR " (padded, uppercase). -/
def tC7 : Transaction := mkTxn 2 7 100 (some " IR ") dtW

/-- Sample transaction whose country is whitespace only. -/
def tC7b : Transaction := mkTxn 3 7 100 (some "   ") dtW

/-- Sample view with only a velocity limit of 5 per hour. -/
def viewC5 : UserRulesView :=
  { max_transaction_amount := none, max_transactions_per_hour := some 5
    monthly_spending_limit := none, blocked_countries := [] }

/-- Evaluated transaction for the velocity scenarios, created before the
rolling window opens. -/
def tC5 : Transaction := mkTxn 1 7 50 (some "US") ⟨2026, 3, 15, 9, 0, 0, 0⟩

/-- A prior transaction of user 7 created inside the rolling hour before
`dtW`. -/
def priorC5 (id : Int) : Transaction :=
  mkTxn id 7 20 (some "US") ⟨2026, 3, 15, 11, 30, 0, 0⟩

/-- Store with the evaluated transaction plus 5 in-window priors. -/
def dbC5five : DB :=
  { transactions := [tC5, priorC5 11, priorC5 12, priorC5 13, priorC5 14, priorC5 15]
    user_rule_configs := [] }

/-- Store with the evaluated transaction plus 6 in-window priors. -/
def dbC5six : DB :=
  { transactions := [tC5, priorC5 11, priorC5 12, priorC5 13, priorC5 14, priorC5 15, priorC5 16]
    user_rule_configs := [] }

/-- Sample view with only a velocity limit of 2 per hour. -/
def viewC10 : UserRulesView :=
  { max_transaction_amount := none, max_transactions_per_hour := some 2
    monthly_spending_limit := none, blocked_countries := [] }

/-- Evaluated transaction stored inside its own rolling window. -/
def tC10 : Transaction := mkTxn 1 7 50 (some "US") ⟨2026, 3, 15, 11, 30, 0, 0⟩

/-- Another stored in-window transaction of the same user. -/
def oC10a : Transaction := mkTxn 2 7 60 (some "US") ⟨2026, 3, 15, 11, 40, 0, 0⟩

/-- Another stored in-window transaction of the same user. -/
def oC10b : Transaction := mkTxn 3 7 70 (some "US") ⟨2026, 3, 15, 11, 45, 0, 0⟩

/-- Store holding the evaluated transaction and two other in-window rows. -/
def dbC10 : DB := { transactions := [tC10, oC10a, oC10b], user_rule_configs := [] }

/-- Sample view with only a monthly spending limit of 550. -/
def viewC6 : UserRulesView :=
  { max_transaction_amount := none, max_transactions_per_hour := none
    monthly_spending_limit := some 550, blocked_countries := [] }

/-- A February transaction created one hour before month-end. -/
def tC6feb : Transaction := mkTxn 1 7 100 (some "US") ⟨2026, 2, 28, 23, 0, 0, 0⟩

/-- A March transaction created on the 1st, two hours after `tC6feb`. -/
def tC6mar : Transaction := mkTxn 2 7 500 (some "US") ⟨2026, 3, 1, 1, 0, 0, 0⟩

/-- Store holding both monthly-scenario transactions. -/
def dbC6 : DB := { transactions := [tC6feb, tC6mar], user_rule_configs := [] }

/-- Evaluation instant for the monthly scenarios. -/
def nowC6 : DateTime := ⟨2026, 3, 10, 12, 0, 0, 0⟩

/-- Transaction of a user with no stored rule config: huge amount, a
country that a configured user might block. -/
def tC1 : Transaction := mkTxn 1 7 999999 (some "IR") dtW

/-- Store with `tC1` and no rule-config rows at all. -/
def dbC1 : DB := { transactions := [tC1], user_rule_configs := [] }

end Hackillionis

namespace Hackillionis

/-- C3: the decision is a pure total function of the clamped integer
score: below 40 ALLOW, 40 to 70 REVIEW, above 70 BLOCK; in particular
39 gives ALLOW, 40 and 70 give REVIEW, 71 gives BLOCK. -/
theorem decision_boundaries :
    (∀ s : Int,
      (decision_from_score s = .ALLOW ↔ s < 40)
      ∧ (decision_from_score s = .REVIEW ↔ 40 ≤ s ∧ s ≤ 70)
      ∧ (decision_from_score s = .BLOCK ↔ 70 < s))
    ∧ decision_from_score 39 = .ALLOW
    ∧ decision_from_score 40 = .REVIEW
    ∧ decision_from_score 70 = .REVIEW
    ∧ decision_from_score 71 = .BLOCK := by
  refine ⟨fun s => ?_, by decide, by decide, by decide, by decide⟩
  unfold decision_from_score
  split_ifs with h1 h2 <;> refine ⟨?_, ?_, ?_⟩ <;> (simp_all; try omega)

theorem decision_boundaries_witness :
    decision_from_score 39 = .ALLOW ∧ decision_from_score 100 = .BLOCK :=
  ⟨decision_boundaries.2.1, (decision_boundaries.1 100).2.2.mpr (by decide)⟩

/-- Inverting a successful engine run: the stored transaction it loaded,
and the shape of the verdict list and score. -/
lemma evaluate_ok_shape (rules : List Rule) (transaction_id : Int) (db : DB)
    (now : DateTime) (res : EvaluationResult)
    (h : evaluate_transaction rules transaction_id db now = .ok res) :
    ∃ t, db.getTransactionById transaction_id = some t
      ∧ res.rule_results = rules.map (fun rule =>
          { rule.evaluate t (get_user_rules t.user_id db) db now with rule_name := rule.name })
      ∧ res.risk_score = aggregate_risk_score res.rule_results := by
  unfold evaluate_transaction at h
  split at h
  next => exact Except.noConfusion h
  next t heq =>
    injection h with h'
    subst h'
    exact ⟨t, heq, rfl, rfl⟩

/-- Every rule's verdict contributes either 0 or the rule's weight. -/
lemma rule_contribution_cases (rule : Rule) (t : Transaction) (v : UserRulesView)
    (db : DB) (now : DateTime) :
    (rule.evaluate t v db now).risk_contribution = 0
    ∨ (rule.evaluate t v db now).risk_contribution = rule.weight := by
  cases rule with
  | maxAmount w =>
      rcases hv : v.max_transaction_amount with _ | limit <;>
        simp only [Rule.evaluate, maxAmountEvaluate, Rule.weight, hv]
      · exact Or.inl trivial
      · split_ifs <;> simp
  | velocity w =>
      rcases hv : v.max_transactions_per_hour with _ | limit <;>
        simp only [Rule.evaluate, velocityEvaluate, Rule.weight, hv]
      · exact Or.inl trivial
      · split_ifs <;> simp
  | monthlyLimit w =>
      rcases hv : v.monthly_spending_limit with _ | limit <;>
        simp only [Rule.evaluate, monthlyLimitEvaluate, Rule.weight, hv]
      · exact Or.inl trivial
      · split_ifs <;> simp
  | countryBlock w =>
      simp only [Rule.evaluate, countryBlockEvaluate, Rule.weight]
      split_ifs <;> simp

/-- C2: the engine's reported risk score equals the verdicts' summed
contributions clamped at 100; any sum above 100 is reported as exactly
100; for nonnegative contributions the report lies in [0,100], and in
particular every run of an engine whose rules have nonnegative weights
reports a score in [0,100]. -/
theorem risk_score_clamp :
    (∀ (rules : List Rule) (transaction_id : Int) (db : DB) (now : DateTime)
        (res : EvaluationResult),
        evaluate_transaction rules transaction_id db now = .ok res →
        res.risk_score = aggregate_risk_score res.rule_results)
    ∧ (∀ rule_results : List RuleResult,
        aggregate_risk_score rule_results =
          min 100 ((rule_results.map (fun r => r.risk_contribution)).sum))
    ∧ (∀ rule_results : List RuleResult,
        100 < (rule_results.map (fun r => r.risk_contribution)).sum →
        aggregate_risk_score rule_results = 100)
    ∧ (∀ rule_results : List RuleResult,
        (∀ r ∈ rule_results, 0 ≤ r.risk_contribution) →
        0 ≤ aggregate_risk_score rule_results
        ∧ aggregate_risk_score rule_results ≤ 100)
    ∧ (∀ (rules : List Rule) (transaction_id : Int) (db : DB) (now : DateTime)
        (res : EvaluationResult),
        (∀ rule ∈ rules, 0 ≤ rule.weight) →
        evaluate_transaction rules transaction_id db now = .ok res →
        0 ≤ res.risk_score ∧ res.risk_score ≤ 100) := by
  have hbound : ∀ rule_results : List RuleResult,
      (∀ r ∈ rule_results, 0 ≤ r.risk_contribution) →
      0 ≤ aggregate_risk_score rule_results
      ∧ aggregate_risk_score rule_results ≤ 100 := by
    intro rrs hpos
    unfold aggregate_risk_score
    refine ⟨le_min (by norm_num) (List.sum_nonneg ?_), min_le_left _ _⟩
    intro x hx
    obtain ⟨r, hr, rfl⟩ := List.mem_map.mp hx
    exact hpos r hr
  refine ⟨?_, fun _ => rfl, ?_, hbound, ?_⟩
  · intro rules transaction_id db now res h
    obtain ⟨t, -, -, hs⟩ := evaluate_ok_shape rules transaction_id db now res h
    exact hs
  · intro rrs hsum
    unfold aggregate_risk_score
    exact min_eq_left hsum.le
  · intro rules transaction_id db now res hw h
    obtain ⟨t, -, hrr, hs⟩ := evaluate_ok_shape rules transaction_id db now res h
    rw [hs]
    refine hbound res.rule_results ?_
    intro r hr
    rw [hrr] at hr
    obtain ⟨rule, hrule, rfl⟩ := List.mem_map.mp hr
    have hproj : ({ rule.evaluate t (get_user_rules t.user_id db) db now
        with rule_name := rule.name }).risk_contribution
        = (rule.evaluate t (get_user_rules t.user_id db) db now).risk_contribution := rfl
    rw [hproj]
    rcases rule_contribution_cases rule t (get_user_rules t.user_id db) db now with h0 | hwgt
    · rw [h0]
    · rw [hwgt]
      exact hw rule hrule

theorem risk_score_clamp_witness :
    aggregate_risk_score
      [{ triggered := true, message := "m1", risk_contribution := 30, rule_name := "MaxAmountRule" },
       { triggered := true, message := "m2", risk_contribution := 25, rule_name := "VelocityRule" },
       { triggered := true, message := "m3", risk_contribution := 35, rule_name := "MonthlyLimitRule" },
       { triggered := true, message := "m4", risk_contribution := 40, rule_name := "CountryBlockRule" }]
      = 100 :=
  risk_score_clamp.2.2.1 _ (by decide)

/-- C9: constructing any rule with an integer weight outside [0,100]
fails with the invalid-configuration error at construction time, before
registration; every weight in [0,100] constructs successfully with that
weight fixed. -/
theorem rule_weight_validated (weight : Int) :
    (∀ name, BaseRuleData.init name weight = .ok { name := name, weight := weight }
        ↔ 0 ≤ weight ∧ weight ≤ 100)
    ∧ (mkMaxAmountRule weight = .ok (.maxAmount weight) ↔ 0 ≤ weight ∧ weight ≤ 100)
    ∧ (mkVelocityRule weight = .ok (.velocity weight) ↔ 0 ≤ weight ∧ weight ≤ 100)
    ∧ (mkMonthlyLimitRule weight = .ok (.monthlyLimit weight) ↔ 0 ≤ weight ∧ weight ≤ 100)
    ∧ (mkCountryBlockRule weight = .ok (.countryBlock weight) ↔ 0 ≤ weight ∧ weight ≤ 100)
    ∧ (¬(0 ≤ weight ∧ weight ≤ 100) →
        (∀ name, BaseRuleData.init name weight
            = .error (.invalidConfiguration "weight must be between 0 and 100"))
        ∧ mkMaxAmountRule weight
            = .error (.invalidConfiguration "weight must be between 0 and 100")
        ∧ mkVelocityRule weight
            = .error (.invalidConfiguration "weight must be between 0 and 100")
        ∧ mkMonthlyLimitRule weight
            = .error (.invalidConfiguration "weight must be between 0 and 100")
        ∧ mkCountryBlockRule weight
            = .error (.invalidConfiguration "weight must be between 0 and 100")) := by
  by_cases h : 0 ≤ weight ∧ weight ≤ 100 <;>
    simp [BaseRuleData.init, mkMaxAmountRule, mkVelocityRule, mkMonthlyLimitRule,
      mkCountryBlockRule, h, Except.bind, bind]

theorem rule_weight_validated_witness :
    mkMaxAmountRule 101 = .error (.invalidConfiguration "weight must be between 0 and 100")
    ∧ mkMaxAmountRule 30 = .ok (.maxAmount 30) :=
  ⟨((rule_weight_validated 101).2.2.2.2.2 (by decide)).2.1,
   (rule_weight_validated 30).2.1.mpr (by decide)⟩

/-- C8: evaluation fails with the not-found error exactly when no stored
transaction has the given id, and that failure is independent of the
registered rules, so no verdict or partial result is produced on that
path. -/
theorem missing_transaction_not_found (rules : List Rule) (transaction_id : Int)
    (db : DB) (now : DateTime) :
    (evaluate_transaction rules transaction_id db now
        = .error (.notFound transaction_id)
      ↔ db.getTransactionById transaction_id = none)
    ∧ (db.getTransactionById transaction_id = none →
        ∀ other_rules : List Rule,
          evaluate_transaction other_rules transaction_id db now
            = .error (.notFound transaction_id)) := by
  cases hfind : db.getTransactionById transaction_id with
  | none =>
      constructor
      · simp [evaluate_transaction, hfind]
      · intro _ other_rules
        simp [evaluate_transaction, hfind]
  | some t =>
      constructor
      · simp [evaluate_transaction, hfind]
      · intro hnone
        exact Option.noConfusion hnone

theorem missing_transaction_not_found_witness :
    evaluate_transaction create_default_engine 1 dbEmpty dtW = .error (.notFound 1) :=
  (missing_transaction_not_found create_default_engine 1 dbEmpty dtW).1.mpr rfl

/-- C4: MaxAmountRule triggers exactly when the amount strictly exceeds a
configured limit, contributing its weight; amount equal to the limit does
not trigger; a limit of exactly 0 triggers for every positive amount; an
unset limit never triggers. -/
theorem max_amount_strict (weight : Int) (transaction : Transaction)
    (user_rules : UserRulesView) (db : DB) (now : DateTime) :
    (∀ limit, user_rules.max_transaction_amount = some limit →
      ((maxAmountEvaluate weight transaction user_rules db now).triggered = true
          ↔ limit < transaction.amount)
      ∧ ((maxAmountEvaluate weight transaction user_rules db now).triggered = true →
          (maxAmountEvaluate weight transaction user_rules db now).risk_contribution = weight)
      ∧ ((maxAmountEvaluate weight transaction user_rules db now).triggered = false →
          (maxAmountEvaluate weight transaction user_rules db now).risk_contribution = 0)
      ∧ (transaction.amount = limit →
          (maxAmountEvaluate weight transaction user_rules db now).triggered = false)
      ∧ (limit = 0 → 0 < transaction.amount →
          (maxAmountEvaluate weight transaction user_rules db now).triggered = true))
    ∧ (user_rules.max_transaction_amount = none →
        (maxAmountEvaluate weight transaction user_rules db now).triggered = false
        ∧ (maxAmountEvaluate weight transaction user_rules db now).risk_contribution = 0) := by
  constructor
  · intro limit hlim
    simp only [maxAmountEvaluate, hlim]
    by_cases hle : transaction.amount ≤ limit
    · rw [if_pos hle]
      refine ⟨?_, ?_, ?_, ?_, ?_⟩
      · simpa using not_lt.mpr hle
      · intro h; simp at h
      · intro _; rfl
      · intro _; rfl
      · intro h0 hpos
        subst h0
        exact absurd hpos (not_lt.mpr hle)
    · rw [if_neg hle]
      push_neg at hle
      refine ⟨?_, ?_, ?_, ?_, ?_⟩
      · simpa using hle
      · intro _; rfl
      · intro h; simp at h
      · intro heq
        rw [heq] at hle
        exact absurd hle (lt_irrefl _)
      · intro _ _; rfl
  · intro hnone
    simp [maxAmountEvaluate, hnone]

theorem max_amount_strict_witness :
    (maxAmountEvaluate 30 tC4 viewC4 dbEmpty dtW).triggered = true
    ∧ (maxAmountEvaluate 30 tC4 viewC4 dbEmpty dtW).risk_contribution = 30 := by
  have h := (max_amount_strict 30 tC4 viewC4 dbEmpty dtW).1 100 rfl
  exact ⟨h.1.mpr (by decide), h.2.1 (h.1.mpr (by decide))⟩


/-- A non-empty boolean-`isEmpty` list is `[]`. -/
lemma eq_nil_of_isEmpty {α : Type} {l : List α} (h : l.isEmpty = true) : l = [] := by
  cases l with
  | nil => rfl
  | cons a l => simp [List.isEmpty] at h

/-- For a non-empty normalized country, membership in the normalized
blocked list is the same as some raw blocked entry having that normal
form (the `if c` filter only discards the empty string, whose normal form
cannot match). -/
lemma mem_normalized_blocked (blocked : List String) (country : String)
    (hne : country ≠ "") :
    (country ∈ (blocked.filter (fun c => c != "")).map (fun c => pyUpper (pyStrip c)))
      ↔ ∃ c ∈ blocked, pyUpper (pyStrip c) = country := by
  simp only [List.mem_map, List.mem_filter, bne_iff_ne, ne_eq]
  constructor
  · rintro ⟨c, ⟨hc, _⟩, hn⟩
    exact ⟨c, hc, hn⟩
  · rintro ⟨c, hc, hn⟩
    refine ⟨c, ⟨hc, ?_⟩, hn⟩
    rintro rfl
    have h0 : pyUpper (pyStrip "") = "" := rfl
    rw [h0] at hn
    exact hne hn.symm

/-- C7: CountryBlockRule is a pure normalized string-set membership test:
it triggers exactly when the transaction's stripped, uppercased country
is non-empty and equals the stripped, uppercased form of some member of
the blocked set, contributing its weight when triggered and 0 otherwise
(an absent or whitespace-only country never triggers). -/
theorem country_block_membership (weight : Int) (transaction : Transaction)
    (user_rules : UserRulesView) (db : DB) (now : DateTime) :
    ((countryBlockEvaluate weight transaction user_rules db now).triggered = true
      ↔ (pyUpper (pyStrip (transaction.country.getD "")) ≠ ""
         ∧ ∃ c ∈ user_rules.blocked_countries,
             pyUpper (pyStrip c) = pyUpper (pyStrip (transaction.country.getD ""))))
    ∧ ((countryBlockEvaluate weight transaction user_rules db now).triggered = true →
        (countryBlockEvaluate weight transaction user_rules db now).risk_contribution = weight)
    ∧ ((countryBlockEvaluate weight transaction user_rules db now).triggered = false →
        (countryBlockEvaluate weight transaction user_rules db now).risk_contribution = 0) := by
  simp only [countryBlockEvaluate]
  split_ifs with h1 h2 h3
  · have hnil : user_rules.blocked_countries = [] := eq_nil_of_isEmpty h1
    simp [hnil]
  · simp [h2]
  · refine ⟨?_, ?_, ?_⟩
    · exact iff_of_true rfl
        ⟨h2, (mem_normalized_blocked user_rules.blocked_countries _ h2).mp h3⟩
    · intro _
      rfl
    · intro h
      simp at h
  · refine ⟨?_, ?_, ?_⟩
    · refine iff_of_false (by simp) ?_
      rintro ⟨hne, hex⟩
      exact h3 ((mem_normalized_blocked user_rules.blocked_countries _ hne).mpr hex)
    · intro h
      simp at h
    · intro _
      rfl

theorem country_block_membership_witness :
    (countryBlockEvaluate 40 tC7 viewC7 dbEmpty dtW).triggered = true
    ∧ (countryBlockEvaluate 40 tC7b viewC7 dbEmpty dtW).triggered = false := by
  constructor
  · exact (country_block_membership 40 tC7 viewC7 dbEmpty dtW).1.mpr (by decide)
  · cases htr : (countryBlockEvaluate 40 tC7b viewC7 dbEmpty dtW).triggered
    · rfl
    · exact absurd ((country_block_membership 40 tC7b viewC7 dbEmpty dtW).1.mp htr)
        (by decide)

/-- C5: with a velocity limit of 5, exactly five prior transactions (all
distinct from the evaluated one) inside the rolling hour ending at
evaluation time do not trigger the rule and six do; in general the rule
triggers exactly when the user's in-window transaction count strictly
exceeds the limit. -/
theorem velocity_boundary (weight : Int) (transaction : Transaction)
    (user_rules : UserRulesView) (db : DB) (now : DateTime)
    (hlim : user_rules.max_transactions_per_hour = some 5) :
    (((db.transactionsSince transaction.user_id now.minusOneHour).length = 5
        ∧ ∀ r ∈ db.transactionsSince transaction.user_id now.minusOneHour,
            r.id ≠ transaction.id) →
      (velocityEvaluate weight transaction user_rules db now).triggered = false)
    ∧ (((db.transactionsSince transaction.user_id now.minusOneHour).length = 6
        ∧ ∀ r ∈ db.transactionsSince transaction.user_id now.minusOneHour,
            r.id ≠ transaction.id) →
      (velocityEvaluate weight transaction user_rules db now).triggered = true)
    ∧ ((velocityEvaluate weight transaction user_rules db now).triggered = true
      ↔ 5 < db.countTransactionsSince transaction.user_id now.minusOneHour) := by
  have hc : db.countTransactionsSince transaction.user_id now.minusOneHour
      = (db.transactionsSince transaction.user_id now.minusOneHour).length := rfl
  simp only [velocityEvaluate, hlim]
  by_cases hle : (db.countTransactionsSince transaction.user_id now.minusOneHour : Int) ≤ 5
  · rw [if_pos hle]
    refine ⟨fun _ => rfl, ?_, ?_⟩
    · rintro ⟨h6, -⟩
      exfalso
      omega
    · refine iff_of_false (by simp) ?_
      omega
  · rw [if_neg hle]
    refine ⟨?_, fun _ => rfl, ?_⟩
    · rintro ⟨h5, -⟩
      exfalso
      omega
    · exact iff_of_true rfl (by omega)

theorem velocity_boundary_witness :
    (velocityEvaluate 25 tC5 viewC5 dbC5five dtW).triggered = false
    ∧ (velocityEvaluate 25 tC5 viewC5 dbC5six dtW).triggered = true := by
  constructor
  · exact (velocity_boundary 25 tC5 viewC5 dbC5five dtW rfl).1 (by decide)
  · exact (velocity_boundary 25 tC5 viewC5 dbC5six dtW rfl).2.1 (by decide)

/-- Splitting a list's length into the elements equal to `t` and the
rest. -/
lemma length_filter_ne_add_count (l : List Transaction) (t : Transaction) :
    l.length = (l.filter (fun r => r != t)).length + l.count t := by
  induction l with
  | nil => rfl
  | cons a l ih =>
      by_cases ha : a = t
      · subst ha
        have h1 : (a :: l).filter (fun r => r != a) = l.filter (fun r => r != a) := by
          simp
        have h2 : (a :: l).count a = l.count a + 1 := by
          simp
        rw [List.length_cons, h1, h2]
        omega
      · have h1 : (a :: l).filter (fun r => r != t) = a :: l.filter (fun r => r != t) := by
          simp [List.filter_cons, ha]
        have h2 : (a :: l).count t = l.count t := by
          simp [List.count_cons, ha]
        rw [List.length_cons, h1, List.length_cons, h2]
        omega

/-- Filtering by a predicate the element satisfies preserves its
multiplicity. -/
lemma count_filter_of_pos {p : Transaction → Bool} (l : List Transaction)
    (t : Transaction) (hp : p t = true) :
    (l.filter p).count t = l.count t := by
  induction l with
  | nil => rfl
  | cons a l ih =>
      by_cases ha : a = t
      · subst ha
        rw [List.filter_cons, if_pos hp]
        simp [List.count_cons, ih]
      · rw [List.filter_cons]
        by_cases hpa : p a = true
        · rw [if_pos hpa]
          simp [List.count_cons, ha, ih]
        · rw [if_neg hpa]
          simp [List.count_cons, ha, ih]

/-- C10: the velocity count ranges over all of the user's stored
transactions in the rolling hour and does not exclude the evaluated one:
when it is stored (once) with a creation time inside the window, the
count compared against the limit is the number of other in-window
transactions plus one. -/
theorem velocity_counts_current (weight : Int) (transaction : Transaction)
    (user_rules : UserRulesView) (db : DB) (now : DateTime) (limit : Int)
    (hlim : user_rules.max_transactions_per_hour = some limit)
    (hstored : db.transactions.count transaction = 1)
    (hwin : DateTime.ble now.minusOneHour transaction.created_at = true) :
    db.countTransactionsSince transaction.user_id now.minusOneHour =
      ((db.transactionsSince transaction.user_id now.minusOneHour).filter
          (fun r => r != transaction)).length + 1
    ∧ ((velocityEvaluate weight transaction user_rules db now).triggered = true
      ↔ limit <
          (((db.transactionsSince transaction.user_id now.minusOneHour).filter
              (fun r => r != transaction)).length : Int) + 1) := by
  have hp : (fun r => r.user_id == transaction.user_id
      && DateTime.ble now.minusOneHour r.created_at) transaction = true := by
    simp [hwin]
  have hcount : (db.transactionsSince transaction.user_id now.minusOneHour).count transaction = 1 := by
    unfold DB.transactionsSince
    rw [count_filter_of_pos db.transactions transaction hp]
    exact hstored
  have hkey : db.countTransactionsSince transaction.user_id now.minusOneHour =
      ((db.transactionsSince transaction.user_id now.minusOneHour).filter
          (fun r => r != transaction)).length + 1 := by
    unfold DB.countTransactionsSince
    rw [length_filter_ne_add_count
      (db.transactionsSince transaction.user_id now.minusOneHour) transaction, hcount]
  refine ⟨hkey, ?_⟩
  simp only [velocityEvaluate, hlim]
  by_cases hle : (db.countTransactionsSince transaction.user_id now.minusOneHour : Int) ≤ limit
  · rw [if_pos hle]
    refine iff_of_false (by simp) ?_
    rw [hkey] at hle
    push_cast at hle
    omega
  · rw [if_neg hle]
    refine iff_of_true rfl ?_
    rw [hkey] at hle
    push_cast at hle
    omega

theorem velocity_counts_current_witness :
    (velocityEvaluate 25 tC10 viewC10 dbC10 dtW).triggered = true
    ∧ ((dbC10.transactionsSince tC10.user_id dtW.minusOneHour).filter
        (fun r => r != tC10)).length = 2 := by
  have h := velocity_counts_current 25 tC10 viewC10 dbC10 dtW 2 rfl (by decide) (by decide)
  exact ⟨h.2.mpr (by decide), by decide⟩

/-- A timestamp of an earlier calendar month compares strictly before the
start of the given timestamp's month. -/
lemma ble_startOfMonth_eq_false (t r : DateTime)
    (h : r.year < t.year ∨ (r.year = t.year ∧ r.month < t.month)) :
    DateTime.ble t.startOfMonth r = false := by
  dsimp only [DateTime.startOfMonth, DateTime.ble]
  rcases h with h | ⟨h1, h2⟩
  · rw [if_neg (by omega), if_pos (by omega)]
  · rw [if_neg (by omega), if_neg (by omega), if_neg (by omega), if_pos (by omega)]

/-- C6 counterexample: the monthly window has no upper bound, so a stored
transaction created on the 1st of March (two hours after a February
transaction of the same user) IS counted in the sum used when the
February transaction is evaluated: that evaluation sums 100 + 500 = 600
and triggers a 550 limit which February's own spending would not reach. -/
theorem monthly_window_counts_next_month :
    tC6mar ∈ dbC6.transactionsSince tC6feb.user_id tC6feb.created_at.startOfMonth
    ∧ dbC6.sumTransactionAmountsSince tC6feb.user_id tC6feb.created_at.startOfMonth = 600
    ∧ (monthlyLimitEvaluate 35 tC6feb viewC6 dbC6 nowC6).triggered = true := by
  have hlist : dbC6.transactionsSince tC6feb.user_id tC6feb.created_at.startOfMonth
      = [tC6feb, tC6mar] := by decide
  have hsum : dbC6.sumTransactionAmountsSince tC6feb.user_id
      tC6feb.created_at.startOfMonth = 600 := by
    unfold DB.sumTransactionAmountsSince
    rw [hlist]
    show tC6feb.amount + (tC6mar.amount + 0) = 600
    norm_num [tC6feb, tC6mar, mkTxn]
  refine ⟨by decide, hsum, ?_⟩
  have h550 : viewC6.monthly_spending_limit = some 550 := rfl
  simp only [monthlyLimitEvaluate, h550, hsum]
  rw [if_neg (by norm_num)]

/-- C6 (amended): the monthly sum ranges over the user's stored
transactions created at or after midnight on day 1 of the evaluated
transaction's calendar month: records of earlier months are excluded (a
day-1 transaction's sum gets nothing from the prior month), every stored
same-user record at or after that instant — later months included — is
counted, and the rule triggers exactly when that sum strictly exceeds
the limit. -/
theorem monthly_calendar_window (weight : Int) (transaction : Transaction)
    (user_rules : UserRulesView) (db : DB) (now : DateTime) (limit : Rat)
    (hlim : user_rules.monthly_spending_limit = some limit) :
    ((monthlyLimitEvaluate weight transaction user_rules db now).triggered = true
      ↔ limit < db.sumTransactionAmountsSince transaction.user_id
          transaction.created_at.startOfMonth)
    ∧ (∀ r : Transaction,
        (r.created_at.year < transaction.created_at.year
          ∨ (r.created_at.year = transaction.created_at.year
             ∧ r.created_at.month < transaction.created_at.month)) →
        r ∉ db.transactionsSince transaction.user_id transaction.created_at.startOfMonth)
    ∧ (∀ r ∈ db.transactions,
        r.user_id = transaction.user_id →
        DateTime.ble transaction.created_at.startOfMonth r.created_at = true →
        r ∈ db.transactionsSince transaction.user_id transaction.created_at.startOfMonth) := by
  refine ⟨?_, ?_, ?_⟩
  · simp only [monthlyLimitEvaluate, hlim]
    by_cases hle : db.sumTransactionAmountsSince transaction.user_id
        transaction.created_at.startOfMonth ≤ limit
    · rw [if_pos hle]
      exact iff_of_false (by simp) (not_lt.mpr hle)
    · rw [if_neg hle]
      exact iff_of_true rfl (not_le.mp hle)
  · intro r hym hmem
    have hble := ble_startOfMonth_eq_false transaction.created_at r.created_at hym
    unfold DB.transactionsSince at hmem
    rw [List.mem_filter] at hmem
    simp [hble] at hmem
  · intro r hr hu hble
    unfold DB.transactionsSince
    rw [List.mem_filter]
    exact ⟨hr, by simp [hu, hble]⟩

theorem monthly_calendar_window_witness :
    tC6feb ∉ dbC6.transactionsSince tC6mar.user_id tC6mar.created_at.startOfMonth
    ∧ (monthlyLimitEvaluate 35 tC6mar viewC6 dbC6 nowC6).triggered = false := by
  have h := monthly_calendar_window 35 tC6mar viewC6 dbC6 nowC6 550 rfl
  have hsum2 : dbC6.sumTransactionAmountsSince tC6mar.user_id
      tC6mar.created_at.startOfMonth = 500 := by
    have hlist : dbC6.transactionsSince tC6mar.user_id tC6mar.created_at.startOfMonth
        = [tC6mar] := by decide
    unfold DB.sumTransactionAmountsSince
    rw [hlist]
    show tC6mar.amount + 0 = 500
    norm_num [tC6mar, mkTxn]
  refine ⟨h.2.1 tC6feb (by decide), ?_⟩
  cases htr : (monthlyLimitEvaluate 35 tC6mar viewC6 dbC6 nowC6).triggered
  · rfl
  · exact absurd (h.1.mp htr) (by rw [hsum2]; norm_num)

/-- C1: a transaction whose owner has no stored rule-config row resolves
to the all-default view (every limit unset, empty blocked set), so the
default engine reports risk score 0 and decision ALLOW with every rule
untriggered at contribution 0, regardless of amount or country; and each
built-in rule with an unset limit (or an empty blocked set) returns
triggered false with contribution 0 for any weight. -/
theorem no_config_always_allow (transaction_id : Int) (db : DB) (now : DateTime)
    (t : Transaction)
    (hfind : db.getTransactionById transaction_id = some t)
    (hcfg : db.getConfigurationForUser t.user_id = none) :
    evaluate_transaction create_default_engine transaction_id db now =
      .ok { transaction_id := transaction_id, risk_score := 0, decision := .ALLOW
            rule_results := [
              { triggered := false, message := "No amount limit set"
                risk_contribution := 0, rule_name := "MaxAmountRule" },
              { triggered := false, message := "No velocity limit set"
                risk_contribution := 0, rule_name := "VelocityRule" },
              { triggered := false, message := "No monthly limit set"
                risk_contribution := 0, rule_name := "MonthlyLimitRule" },
              { triggered := false, message := "No countries blocked"
                risk_contribution := 0, rule_name := "CountryBlockRule" }] }
    ∧ get_user_rules t.user_id db = default_user_rules
    ∧ (∀ (w : Int) (tr : Transaction) (v : UserRulesView) (db' : DB) (now' : DateTime),
        v.max_transaction_amount = none →
        (maxAmountEvaluate w tr v db' now').triggered = false
        ∧ (maxAmountEvaluate w tr v db' now').risk_contribution = 0)
    ∧ (∀ (w : Int) (tr : Transaction) (v : UserRulesView) (db' : DB) (now' : DateTime),
        v.max_transactions_per_hour = none →
        (velocityEvaluate w tr v db' now').triggered = false
        ∧ (velocityEvaluate w tr v db' now').risk_contribution = 0)
    ∧ (∀ (w : Int) (tr : Transaction) (v : UserRulesView) (db' : DB) (now' : DateTime),
        v.monthly_spending_limit = none →
        (monthlyLimitEvaluate w tr v db' now').triggered = false
        ∧ (monthlyLimitEvaluate w tr v db' now').risk_contribution = 0)
    ∧ (∀ (w : Int) (tr : Transaction) (v : UserRulesView) (db' : DB) (now' : DateTime),
        v.blocked_countries = [] →
        (countryBlockEvaluate w tr v db' now').triggered = false
        ∧ (countryBlockEvaluate w tr v db' now').risk_contribution = 0) := by
  refine ⟨?_, ?_, ?_, ?_, ?_, ?_⟩
  · simp only [evaluate_transaction, hfind, get_user_rules, hcfg]
    rfl
  · simp [get_user_rules, hcfg]
  · intro w tr v db' now' hnone
    simp [maxAmountEvaluate, hnone]
  · intro w tr v db' now' hnone
    simp [velocityEvaluate, hnone]
  · intro w tr v db' now' hnone
    simp [monthlyLimitEvaluate, hnone]
  · intro w tr v db' now' hnil
    simp [countryBlockEvaluate, hnil]

theorem no_config_always_allow_witness :
    evaluate_transaction create_default_engine 1 dbC1 dtW =
      .ok { transaction_id := 1, risk_score := 0, decision := .ALLOW
            rule_results := [
              { triggered := false, message := "No amount limit set"
                risk_contribution := 0, rule_name := "MaxAmountRule" },
              { triggered := false, message := "No velocity limit set"
                risk_contribution := 0, rule_name := "VelocityRule" },
              { triggered := false, message := "No monthly limit set"
                risk_contribution := 0, rule_name := "MonthlyLimitRule" },
              { triggered := false, message := "No countries blocked"
                risk_contribution := 0, rule_name := "CountryBlockRule" }] } :=
  (no_config_always_allow 1 dbC1 dtW tC1 rfl rfl).1

end Hackillionis
